import Mathlib

/-!
Verification development for the memo plugin manager.

The TypeScript sources (the PluginManager class together with its util and
type modules) are shallowly embedded below.  JavaScript objects used as
string-keyed records are modelled as association lists over String, mutating
methods are modelled as pure functions from state to state, and filesystem
side effects are reified as an explicit list of actions.  JSON values are
modelled by the inductive type JVal, with a dedicated constructor for the
JavaScript value undefined.
-/

/-- Association list model of a JavaScript string-keyed record. -/
abbrev JRecord (α : Type) := List (String × α)

/-- Record read: first binding of the key, if any. -/
def alistGet {α : Type} (m : JRecord α) (k : String) : Option α :=
  (m.find? (fun kv => kv.1 == k)).map (fun kv => kv.2)

/-- Record write: overwrite the binding in place, or append a new one. -/
def alistSet {α : Type} : JRecord α → String → α → JRecord α
  | [], k, v => [(k, v)]
  | kv :: rest, k, v => if kv.1 == k then (k, v) :: rest else kv :: alistSet rest k v

/-- Record delete: remove every binding of the key. -/
def alistErase {α : Type} (m : JRecord α) (k : String) : JRecord α :=
  m.filter (fun kv => kv.1 != k)

/-- JavaScript value model (JSON values plus the value undefined).  Arrays do
not occur at the positions the embedded code inspects, so they are not
modelled. -/
inductive JVal where
  | vnull
  | vundef
  | vbool (b : Bool)
  | vnum (n : Int)
  | vstr (s : String)
  | vobj (fields : List (String × JVal))

/-- A plain JavaScript object, as stored in configuration records. -/
abbrev Obj := JRecord JVal

/-- Object spread, the semantics of the literal with the fields of a spread
first and the fields of b second: keys of a keep their position, values from
b win on collisions, and the remaining keys of b are appended in order. -/
def objSpread (a b : Obj) : Obj :=
  a.map (fun kv =>
    match alistGet b kv.1 with
    | some v => (kv.1, v)
    | none => kv) ++
  b.filter (fun kv => (alistGet a kv.1).isNone)

/-- Structural model of the JavaScript split on a single-character
separator, over the character list of the string (String.splitOn of the
library is defined by well-founded recursion and does not evaluate inside
the kernel, so the split is embedded directly). -/
def splitCharsOn (sep : Char) : List Char → List Char → List String
  | [], acc => [String.mk acc.reverse]
  | c :: cs, acc =>
      if c = sep then String.mk acc.reverse :: splitCharsOn sep cs []
      else splitCharsOn sep cs (c :: acc)

/-- The split of a dotted path or version string on the dot separator. -/
def jsSplitDot (s : String) : List String := splitCharsOn '.' s.data []

/-- Numeric value of a version segment: digit segments parse in base ten,
anything else counts as zero. -/
def segToNat (s : String) : Nat :=
  if s.data.all (fun c => c.isDigit) then
    s.data.foldl (fun n c => n * 10 + (c.toNat - Char.toNat '0')) 0
  else 0

/-- Whether every remaining segment is zero. -/
def allZeroSegs : List Nat → Bool
  | [] => true
  | b :: bs => b == 0 && allZeroSegs bs

/-- Numeric comparison of dotted version segments, missing segments treated
as zero; the model of the compare-versions library over the dotted numeric
version strings this repository uses. -/
def compareSegs : List Nat → List Nat → Int
  | [], bs => if allZeroSegs bs then 0 else -1
  | a :: as, [] => if a = 0 then compareSegs as [] else 1
  | a :: as, b :: bs =>
      if a < b then -1 else if b < a then 1 else compareSegs as bs

/-- Split a version string into numeric segments. -/
def parseSegs (s : String) : List Nat :=
  (jsSplitDot s).map segToNat

/-- The version comparator: -1, 0 or 1. -/
def compareVersions (a b : String) : Int :=
  compareSegs (parseSegs a) (parseSegs b)

/-- The loop of getValueFromJSON from util: walk a list of keys through
nested objects; any step on a non-object or a missing key yields undefined. -/
def getValueFromJSONPath : JVal → List String → JVal
  | cur, [] => cur
  | JVal.vobj fields, k :: ks =>
      match alistGet fields k with
      | some v => getValueFromJSONPath v ks
      | none => JVal.vundef
  | _, _ :: _ => JVal.vundef

/-- getValueFromJSON from util: dotted-path lookup into a settings object. -/
def getValueFromJSON (json : JVal) (valuePath : String) : JVal :=
  getValueFromJSONPath json (jsSplitDot valuePath)

/-- Plugin category from types. -/
inductive PluginType where
  | translate
  | summarize
  | download
  | tts
  | transcription
deriving DecidableEq

/-- Import mode of a plugin entry file, from the Manifest type. -/
inductive ImportType where
  | module
  | sandbox
deriving DecidableEq

/-- Provider block of a manifest. -/
structure ManifestProvider where
  value : String
  label : String
  disabled : Option Bool
deriving DecidableEq

/-- Slider range of a manifest configuration field. -/
structure NumericRange where
  min : Int
  max : Int
  step : Int
deriving DecidableEq

/-- Select option of a manifest configuration field. -/
structure SelectOption where
  value : String
  label : String
deriving DecidableEq

/-- One form-field declaration from a manifest configuration list. -/
structure ManifestConfiguration where
  label : String
  key : String
  type : String
  placeholder : String
  description : String
  helpText : String
  searchPlaceholder : Option String
  emptyPlaceholder : Option String
  range : Option NumericRange
  options : Option (List SelectOption)
  useI18nOptions : Option Bool
  inherit : Option String
deriving DecidableEq

/-- The Manifest interface from types. -/
structure Manifest where
  manifestVersion : String
  version : String
  version_name : String
  title : String
  description : String
  type : PluginType
  pluginId : String
  category : String
  platforms : List String
  arch : List String
  icon : String
  link : String
  author : String
  homepage : String
  source : String
  importType : Option ImportType
  provider : ManifestProvider
  configuration : List ManifestConfiguration
  defaultsConfiguration : Obj
  configurationRequired : List String
  configurationExposed : List String
  ttsInput : Option (List String)
  storageKey : Option String
  configurationStorage : Option (List String)

/-- The Plugin interface from types. -/
structure Plugin where
  file : String
  pluginId : String
  version : String
  version_name : String
  title : String
  type : PluginType
  description : String
  category : String
  platforms : List String
  arch : List String
  icon : String
  link : String
  author : String
  homepage : String
  source : String
  hash : Option String
deriving DecidableEq

/-- The I18n interface from types; extra locales beyond the named eight are
not needed by the embedded code. -/
structure I18n where
  en : JRecord String
  zh : JRecord String
  zh_tw : JRecord String
  ja : JRecord String
  ko : JRecord String
  es : JRecord String
  de : JRecord String
  it : JRecord String
deriving DecidableEq

/-- Default localization bundle used when i18n.json is absent. -/
def defaultI18n : I18n :=
  { en := [], zh := [], zh_tw := [], ja := [], ko := [], es := [], de := [], it := [] }

/-- The MemoPlugins catalog shape from types. -/
structure MemoPlugins where
  plugins : List Plugin
  versions : JRecord String
deriving DecidableEq

/-- The empty catalog literal used throughout the source. -/
def emptyCatalog : MemoPlugins := { plugins := [], versions := [] }

/-- A provider entry: a manifest provider annotated with pluginId and type. -/
structure PluginProvider where
  value : String
  label : String
  disabled : Option Bool
  pluginId : String
  type : PluginType
deriving DecidableEq

/-- The provider entry pushed for a plugin, from its manifest. -/
def mkPluginProvider (m : Manifest) (pl : Plugin) : PluginProvider :=
  { value := m.provider.value, label := m.provider.label, disabled := m.provider.disabled,
    pluginId := pl.pluginId, type := pl.type }

/-- The mutable fields of the PluginManager class.  evalCount instruments how
many times plugin entry code has been evaluated (require or vm.run); it is
the observation needed to state memoization and also serves as the fresh
handle for each evaluation. -/
structure ManagerState where
  pluginsCache : JRecord Obj
  installedPlugins : JRecord Plugin
  pluginsConfigurations : JRecord Obj
  installedPluginsManifests : JRecord Manifest
  installedPluginsI18ns : JRecord I18n
  importedPlugins : JRecord Nat
  pluginProviders : List PluginProvider
  localPlugins : MemoPlugins
  onlinePlugins : MemoPlugins
  evalCount : Nat

/-- The field values the constructor starts from. -/
def initialManagerState : ManagerState :=
  { pluginsCache := [], installedPlugins := [], pluginsConfigurations := [],
    installedPluginsManifests := [], installedPluginsI18ns := [], importedPlugins := [],
    pluginProviders := [], localPlugins := emptyCatalog, onlinePlugins := emptyCatalog,
    evalCount := 0 }

/-- Reified filesystem side effects of the manager operations. -/
inductive FsAction where
  | ensureDir (p : String)
  | unzipFile (src dst : String)
  | copyFolder (src dst : String)
  | removeFolder (p : String)
  | removeFile (p : String)
  | copyFile (src dst name : String)
  | writeIndexJson (c : MemoPlugins)
  | writeConfigurationJson (cfg : JRecord Obj)
  | writePluginsJson (c : MemoPlugins)
  | writeCacheJson (cache : JRecord Obj)
  | downloadFile (url savePath : String)

/-- The model of path.resolve for the paths the source builds. -/
def pathResolve (base name : String) : String := base ++ "/" ++ name

/-- The model of Array.prototype.findIndex, returning an index option. -/
def findIndexBy {α : Type} (p : α → Bool) : List α → Option Nat
  | [] => none
  | a :: as => if p a then some 0 else (findIndexBy p as).map (fun i => i + 1)

/-- The plugin descriptor synthesized from a parsed manifest, as built both in
installPlugins and in the preset batch install: entry file and icon resolve
into the versioned directory under the installation root, homepage and source
both copy the manifest source field, and no hash is set. -/
def pluginFromManifest (location : String) (data : Manifest) : Plugin :=
  { file := pathResolve location (data.pluginId ++ "@" ++ data.version ++ "/index.js"),
    pluginId := data.pluginId,
    version := data.version,
    version_name := data.version_name,
    title := data.title,
    type := data.type,
    description := data.description,
    category := data.category,
    platforms := data.platforms,
    arch := data.arch,
    icon := pathResolve location (data.pluginId ++ "@" ++ data.version ++ "/icon.svg"),
    link := data.link,
    author := data.author,
    homepage := data.source,
    source := data.source,
    hash := none }

/-- The inherited seed configuration built in installPlugins: every field
whose inherit path is set (and non-empty, matching JavaScript truthiness)
contributes its key bound to the dotted-path lookup into the host settings;
a missing path stores the undefined sentinel. -/
def inheritConfig (fields : List ManifestConfiguration) (setting : JVal) : Obj :=
  fields.foldl
    (fun acc c =>
      match c.inherit with
      | some p => if p == "" then acc else alistSet acc c.key (getValueFromJSON setting p)
      | none => acc)
    []

/-- The catalog update performed identically at both install sites: replace
the descriptor in place when the pluginId is already listed, otherwise
unshift a new entry; then record the version. -/
def catalogUpsert (c : MemoPlugins) (plugin : Plugin) : MemoPlugins :=
  { plugins :=
      match findIndexBy (fun p => p.pluginId == plugin.pluginId) c.plugins with
      | some i => c.plugins.set i plugin
      | none => plugin :: c.plugins,
    versions := alistSet c.versions plugin.pluginId plugin.version }

/-- The state transition of installPlugins once a manifest folder has been
located in the extracted archive (the source from the manifest parse to the
two JSON writes).  Note that no version comparison occurs here. -/
def installPluginsState (st : ManagerState) (location : String) (data : Manifest)
    (i18nFile : Option I18n) (setting : JVal) : ManagerState :=
  let plugin := pluginFromManifest location data
  let i18n := i18nFile.getD defaultI18n
  let pluginIndex := findIndexBy (fun p => p.pluginId == plugin.pluginId) st.localPlugins.plugins
  let oldPluginsConfigurations : Obj :=
    match pluginIndex with
    | some i =>
        match st.localPlugins.plugins[i]? with
        | some oldPlugin =>
            (alistGet st.pluginsConfigurations (oldPlugin.pluginId ++ "@" ++ oldPlugin.version)).getD []
        | none => []
    | none => []
  let inheritPluginsConfigurations := inheritConfig data.configuration setting
  { st with
    localPlugins := catalogUpsert st.localPlugins plugin,
    installedPlugins := alistSet st.installedPlugins plugin.pluginId plugin,
    installedPluginsManifests := alistSet st.installedPluginsManifests plugin.pluginId data,
    installedPluginsI18ns := alistSet st.installedPluginsI18ns plugin.pluginId i18n,
    pluginsConfigurations :=
      alistSet st.pluginsConfigurations (data.pluginId ++ "@" ++ data.version)
        (objSpread inheritPluginsConfigurations oldPluginsConfigurations),
    pluginProviders :=
      match findIndexBy (fun p => p.pluginId == plugin.pluginId) st.pluginProviders with
      | some _ => st.pluginProviders
      | none => st.pluginProviders ++ [mkPluginProvider data plugin] }

/-- The outcome of unzipping the single archive and locating its manifest:
the folder that contains manifest.json, the parsed manifest, and the parsed
i18n.json of the final versioned directory when that file exists. -/
structure FoundManifest where
  manifestDir : String
  data : Manifest
  i18nFile : Option I18n

/-- installPlugins: extract the archive into a fresh temporary directory; if
no manifest is found the state is untouched, otherwise apply the state
transition and persist index.json and configuration.json. -/
def installPlugins (st : ManagerState) (location uuid packPath : String)
    (found : Option FoundManifest) (setting : JVal) : ManagerState × List FsAction :=
  let dist := pathResolve location uuid
  let base := [FsAction.ensureDir dist, FsAction.unzipFile packPath dist]
  match found with
  | none => (st, base)
  | some f =>
      let st2 := installPluginsState st location f.data f.i18nFile setting
      (st2,
       base ++
        [FsAction.copyFolder f.manifestDir
           (pathResolve location (f.data.pluginId ++ "@" ++ f.data.version)),
         FsAction.removeFolder dist,
         FsAction.writeIndexJson st2.localPlugins,
         FsAction.writeConfigurationJson st2.pluginsConfigurations])

/-- The plugin removed by uninstallPlugin, when the pluginId is listed. -/
def deletedPluginOf (st : ManagerState) (pluginId : String) : Option Plugin :=
  match findIndexBy (fun p => p.pluginId == pluginId) st.localPlugins.plugins with
  | some i => st.localPlugins.plugins[i]?
  | none => none

/-- The state transition of uninstallPlugin: splice the descriptor out of
the catalog when present, and delete the versions, installed, manifest and
i18n entries unconditionally; the configuration entry and the provider entry
go only when they are found. -/
def uninstallPluginState (st : ManagerState) (pluginId : String) : ManagerState :=
  let index := findIndexBy (fun p => p.pluginId == pluginId) st.localPlugins.plugins
  let deletedPlugin := deletedPluginOf st pluginId
  let plugins :=
    match index with
    | some i => st.localPlugins.plugins.eraseIdx i
    | none => st.localPlugins.plugins
  let pluginsConfigurations :=
    match deletedPlugin with
    | some dp => alistErase st.pluginsConfigurations (dp.pluginId ++ "@" ++ dp.version)
    | none => st.pluginsConfigurations
  let pluginProviders :=
    match findIndexBy (fun p => p.pluginId == pluginId) st.pluginProviders with
    | some i => st.pluginProviders.eraseIdx i
    | none => st.pluginProviders
  { st with
    localPlugins := { plugins := plugins, versions := alistErase st.localPlugins.versions pluginId },
    installedPlugins := alistErase st.installedPlugins pluginId,
    installedPluginsManifests := alistErase st.installedPluginsManifests pluginId,
    installedPluginsI18ns := alistErase st.installedPluginsI18ns pluginId,
    pluginsConfigurations := pluginsConfigurations,
    pluginProviders := pluginProviders }

/-- uninstallPlugin: apply the state transition, then always rewrite
index.json and configuration.json; remove the versioned directory only when
a descriptor was actually deleted. -/
def uninstallPlugin (st : ManagerState) (location pluginId : String) :
    ManagerState × List FsAction :=
  let st2 := uninstallPluginState st pluginId
  (st2,
   [FsAction.writeIndexJson st2.localPlugins,
    FsAction.writeConfigurationJson st2.pluginsConfigurations] ++
   (match deletedPluginOf st pluginId with
    | some dp => [FsAction.removeFolder (pathResolve location (dp.pluginId ++ "@" ++ dp.version))]
    | none => []))

/-- The body of the catalog response, as inspected by getOnlinePlugins. -/
structure OnlineResponse where
  success : Bool
  data : Option (List Plugin)

/-- The outcome of the awaited axios.get: either the promise rejects, or it
fulfills with a (possibly falsy or malformed) JSON body. -/
inductive FetchResult where
  | rejected (e : String)
  | fulfilled (body : Option OnlineResponse)

/-- The plugin list of a fulfilled body when it passes the truthiness guard
on res, res.success and res.data; none otherwise. -/
def onlineResponseData (body : Option OnlineResponse) : Option (List Plugin) :=
  match body with
  | some res => if res.success then res.data else none
  | none => none

/-- getOnlinePlugins: an awaited rejection of the network fetch propagates;
a fulfilled valid body is cached to plugins.json and returned; a fulfilled
invalid body falls back to the cached plugins.json when it exists and to the
empty catalog otherwise. -/
def getOnlinePlugins (fetch : FetchResult) (cachedPluginsJson : Option MemoPlugins) :
    Except String (MemoPlugins × List FsAction) :=
  match fetch with
  | FetchResult.rejected e => Except.error e
  | FetchResult.fulfilled body =>
    match onlineResponseData body with
    | some lst =>
        let versions := lst.foldl (fun acc p => alistSet acc p.pluginId p.version) []
        let d : MemoPlugins := { plugins := lst, versions := versions }
        Except.ok (d, [FsAction.writePluginsJson d])
    | none =>
        match cachedPluginsJson with
        | some c => Except.ok (c, [])
        | none => Except.ok (emptyCatalog, [])

/-- refreshOnlinePlugins: await getOnlinePlugins and store its result; a
rejection of getOnlinePlugins rejects here too. -/
def refreshOnlinePlugins (st : ManagerState) (fetch : FetchResult)
    (cachedPluginsJson : Option MemoPlugins) :
    Except String (ManagerState × List FsAction) :=
  match getOnlinePlugins fetch cachedPluginsJson with
  | Except.error e => Except.error e
  | Except.ok (d, acts) => Except.ok ({ st with onlinePlugins := d }, acts)

/-- One preset archive of the batch: either its unzip plus manifest parse
succeeded with this manifest, or some step threw with this error. -/
inductive ArchiveResult where
  | ok (data : Manifest)
  | err (e : String)

/-- The body of one iteration of the preset install loop, on the pair of the
accumulated catalog and configuration store: configuration is inherited (by
whole-object copy) when the candidate is strictly newer than the recorded
version, and the catalog is upserted when the pluginId is new or the
candidate compares other than strictly older. -/
def presetStep (pluginsFolder : String) (acc : MemoPlugins × JRecord Obj) (data : Manifest) :
    MemoPlugins × JRecord Obj :=
  let installedPlugins := acc.1
  let pluginsConfigurations := acc.2
  let plugin := pluginFromManifest pluginsFolder data
  let pluginsConfigurations :=
    match alistGet installedPlugins.versions plugin.pluginId with
    | some oldVersion =>
        if compareVersions plugin.version oldVersion = 1 then
          alistSet pluginsConfigurations (plugin.pluginId ++ "@" ++ plugin.version)
            ((alistGet pluginsConfigurations (plugin.pluginId ++ "@" ++ oldVersion)).getD [])
        else pluginsConfigurations
    | none => pluginsConfigurations
  let installedPlugins :=
    match alistGet installedPlugins.versions plugin.pluginId with
    | none => catalogUpsert installedPlugins plugin
    | some oldVersion =>
        if compareVersions plugin.version oldVersion ≠ -1 then catalogUpsert installedPlugins plugin
        else installedPlugins
  (installedPlugins, pluginsConfigurations)

/-- The preset install loop: archives are processed strictly in order, and
the first archive whose unzip or manifest parse throws rejects the whole
async function, so the remaining archives are never reached. -/
def installDefaultLoop (pluginsFolder : String) :
    List ArchiveResult → MemoPlugins × JRecord Obj →
    Except String (MemoPlugins × JRecord Obj)
  | [], acc => Except.ok acc
  | ArchiveResult.err e :: _, _ => Except.error e
  | ArchiveResult.ok data :: rest, acc =>
      installDefaultLoop pluginsFolder rest (presetStep pluginsFolder acc data)

/-- The _installDefaultPlugins pass over the preset folder: nothing happens
when no .memox archives are found; otherwise the on-disk catalog and
configuration store are read (an absent index.json is created empty before
the loop), the loop runs, and only on full success are index.json and
configuration.json flushed, once, followed by the optional removal of the
preset archives.  The per-archive extraction writes are not reified.  The
result pairs the performed JSON writes with the promise outcome. -/
def _installDefaultPlugins (pluginsFolder : String) (archives : List ArchiveResult)
    (indexJson : Option MemoPlugins) (configurationJson : Option (JRecord Obj))
    (removeDefaults : Bool) (presetArchivePaths : List String) :
    List FsAction × Except String Unit :=
  match archives with
  | [] => ([], Except.ok ())
  | a :: rest =>
    let pluginsConfigurations := configurationJson.getD []
    let installedPlugins := indexJson.getD emptyCatalog
    let initActs : List FsAction :=
      match indexJson with
      | some _ => []
      | none => [FsAction.writeIndexJson emptyCatalog]
    match installDefaultLoop pluginsFolder (a :: rest) (installedPlugins, pluginsConfigurations) with
    | Except.error e => (initActs, Except.error e)
    | Except.ok (ip, cfg) =>
        (initActs ++
          [FsAction.writeIndexJson ip, FsAction.writeConfigurationJson cfg] ++
          (if removeDefaults then presetArchivePaths.map FsAction.removeFile else []),
         Except.ok ())

/-- The on-disk inputs of _readLocalPlugins: catalog snapshots, the registry
file, which versioned directories and manifest files exist, the parsed
content of the per-directory manifest and i18n files, and the configuration
and cache stores. -/
structure DiskState where
  presetPluginsJson : Option MemoPlugins
  pluginsJson : Option MemoPlugins
  indexJson : MemoPlugins
  dirExists : List String
  manifestExists : List String
  diskManifests : JRecord Manifest
  diskI18ns : JRecord I18n
  configurationJson : Option (JRecord Obj)
  cacheJson : Option (JRecord Obj)

/-- Placeholder manifest: reconciliation only reads a manifest for directory
names listed in both dirExists and manifestExists, for which diskManifests
carries the parsed content, so this default is never the value actually
used on the paths the theorems take. -/
def defaultManifest : Manifest :=
  { manifestVersion := "", version := "", version_name := "", title := "", description := "",
    type := PluginType.translate, pluginId := "", category := "", platforms := [], arch := [],
    icon := "", link := "", author := "", homepage := "", source := "", importType := none,
    provider := { value := "", label := "", disabled := none }, configuration := [],
    defaultsConfiguration := [], configurationRequired := [], configurationExposed := [],
    ttsInput := none, storageKey := none, configurationStorage := none }

/-- One iteration of the reconciliation loop of _readLocalPlugins over an
installed entry: when the versioned directory or its manifest.json is
missing, the entry is deleted from the in-memory maps and spliced out of the
registry data; otherwise manifest and i18n are loaded and a provider entry
is pushed. -/
def reconcileStep (disk : DiskState) (acc : ManagerState × MemoPlugins) (kv : String × Plugin) :
    ManagerState × MemoPlugins :=
  let st := acc.1
  let data := acc.2
  let key := kv.1
  let pl := kv.2
  let dirName := pl.pluginId ++ "@" ++ pl.version
  if disk.dirExists.contains dirName && disk.manifestExists.contains dirName then
    let manifest := (alistGet disk.diskManifests dirName).getD defaultManifest
    let i18n := (alistGet disk.diskI18ns dirName).getD defaultI18n
    ({ st with
        installedPluginsManifests := alistSet st.installedPluginsManifests key manifest,
        installedPluginsI18ns := alistSet st.installedPluginsI18ns key i18n,
        pluginProviders := st.pluginProviders ++ [mkPluginProvider manifest pl] },
     data)
  else
    let version := pl.version
    ({ st with
        installedPlugins := alistErase st.installedPlugins key,
        localPlugins := { st.localPlugins with versions := alistErase st.localPlugins.versions key },
        installedPluginsManifests := alistErase st.installedPluginsManifests key,
        installedPluginsI18ns := alistErase st.installedPluginsI18ns key,
        pluginsConfigurations := alistErase st.pluginsConfigurations (key ++ "@" ++ version) },
     { plugins :=
         match findIndexBy (fun p => p.pluginId == key) data.plugins with
         | some i => data.plugins.eraseIdx i
         | none => data.plugins,
       versions := alistErase data.versions key })

/-- _readLocalPlugins.  Step one seeds the online catalog: when a preset
plugins.json exists it is copied across (its content reaches onlinePlugins
only inside an asynchronous then-callback, modelled as not yet run, like the
getOnlinePlugins call this method fires and forgets); otherwise an existing
cached plugins.json is read synchronously.  Step two folds the registry file
into installedPlugins.  Step three is the reconciliation loop.  Steps four
and five overlay configuration.json and cache.json onto the in-memory maps.
Finally localPlugins is replaced by the (possibly spliced) registry data;
note that no index.json write is performed here. -/
def _readLocalPlugins (st : ManagerState) (location presetLocation : String) (disk : DiskState) :
    ManagerState × List FsAction :=
  let step1 :
      ManagerState × List FsAction :=
    match disk.presetPluginsJson with
    | some _ =>
        (st, [FsAction.copyFile (pathResolve presetLocation "plugins.json")
                (pathResolve location "plugins.json") "plugins.json"])
    | none =>
        match disk.pluginsJson with
        | some mp => ({ st with onlinePlugins := mp }, [])
        | none => (st, [])
  let st1 := step1.1
  let data := disk.indexJson
  let st2 :=
    { st1 with
      installedPlugins := data.plugins.foldl (fun acc (p : Plugin) => alistSet acc p.pluginId p) st1.installedPlugins }
  let step3 := st2.installedPlugins.foldl (reconcileStep disk) (st2, data)
  let st3 := step3.1
  let st4 :=
    match disk.configurationJson with
    | some cfgs =>
        { st3 with
          pluginsConfigurations := cfgs.foldl (fun acc (kv : String × Obj) => alistSet acc kv.1 kv.2) st3.pluginsConfigurations }
    | none => st3
  let st5 :=
    match disk.cacheJson with
    | some c =>
        { st4 with pluginsCache := c.foldl (fun acc (kv : String × Obj) => alistSet acc kv.1 kv.2) st4.pluginsCache }
    | none => st4
  ({ st5 with localPlugins := step3.2 }, step1.2)

/-- _loadLocalPlugin: a handle already recorded in importedPlugins is
returned as is; otherwise the entry code is evaluated (evalCount grows and
names the fresh handle), and only the module import type records the fresh
handle in importedPlugins — the sandbox branch runs the script in a NodeVM
and returns without memoizing.  A missing manifest would throw in the
source; the callers below only load installed plugins. -/
def _loadLocalPlugin (st : ManagerState) (pluginId : String) : Nat × ManagerState :=
  match alistGet st.importedPlugins pluginId with
  | some h => (h, st)
  | none =>
    match (alistGet st.installedPluginsManifests pluginId).map Manifest.importType with
    | some (some ImportType.module) =>
        (st.evalCount,
         { st with
            importedPlugins := alistSet st.importedPlugins pluginId st.evalCount,
            evalCount := st.evalCount + 1 })
    | _ =>
        (st.evalCount, { st with evalCount := st.evalCount + 1 })

/-- loadPlugin: resolve and read the entry file of the installed plugin and
hand it to _loadLocalPlugin; the file contents do not affect the load-state
model, so the wrapper forwards directly. -/
def loadPlugin (st : ManagerState) (pluginId : String) : Nat × ManagerState :=
  _loadLocalPlugin st pluginId

/-- Whether the promise returned by installOnlinePlugins settled. -/
inductive PromiseState where
  | pending
  | resolved
  | rejected (e : String)

/-- The outcome of the download of the online archive, together with what
installPlugins finds inside it on success. -/
inductive DownloadOutcome where
  | success (localPath : String) (found : Option FoundManifest)
  | failure (e : String)

/-- installOnlinePlugins: the promise executor looks the pluginId up in the
in-memory online catalog; when it is absent nothing at all happens and the
promise never settles.  When present, the archive is downloaded to the
_download path, a failed download rejects, and a completed download runs
installPlugins (with no settings argument, hence undefined) and resolves. -/
def installOnlinePlugins (st : ManagerState) (location pluginId : String)
    (dl : DownloadOutcome) (uuid : String) : PromiseState × ManagerState × List FsAction :=
  match st.onlinePlugins.plugins.find? (fun p => p.pluginId == pluginId) with
  | none => (PromiseState.pending, st, [])
  | some online =>
    let savePath := pathResolve location "_download"
    match dl with
    | DownloadOutcome.failure e =>
        (PromiseState.rejected e, st, [FsAction.downloadFile online.link savePath])
    | DownloadOutcome.success localPath found =>
        let r := installPlugins st location uuid localPath found JVal.vundef
        (PromiseState.resolved, r.1, FsAction.downloadFile online.link savePath :: r.2)

/-- The registry-relevant disk inputs of a reload other than the tracked
index.json and configuration.json. -/
structure ReloadAux where
  presetPluginsJson : Option MemoPlugins
  pluginsJson : Option MemoPlugins
  dirExists : List String
  manifestExists : List String
  diskManifests : JRecord Manifest
  diskI18ns : JRecord I18n
  cacheJson : Option (JRecord Obj)

/-- A lifecycle operation of the manager together with the external inputs
it consumes. -/
inductive RegistryOp where
  | install (location uuid packPath : String) (found : Option FoundManifest) (setting : JVal)
  | uninstall (location pluginId : String)
  | reload (location presetLocation : String) (aux : ReloadAux)

/-- The manager state together with the tracked durable files it reads back
on reload. -/
structure World where
  st : ManagerState
  diskIndex : MemoPlugins
  diskConfig : Option (JRecord Obj)

/-- Apply one reified filesystem action to the tracked durable files. -/
def applyFs (w : World) (a : FsAction) : World :=
  match a with
  | FsAction.writeIndexJson c => { w with diskIndex := c }
  | FsAction.writeConfigurationJson cfg => { w with diskConfig := some cfg }
  | _ => w

/-- Run one lifecycle operation: apply the state transition and replay its
filesystem actions onto the tracked files; a reload reads the registry and
configuration back from those files. -/
def applyOp (w : World) (op : RegistryOp) : World :=
  match op with
  | RegistryOp.install location uuid packPath found setting =>
      let r := installPlugins w.st location uuid packPath found setting
      r.2.foldl applyFs { w with st := r.1 }
  | RegistryOp.uninstall location pluginId =>
      let r := uninstallPlugin w.st location pluginId
      r.2.foldl applyFs { w with st := r.1 }
  | RegistryOp.reload location presetLocation aux =>
      let disk : DiskState :=
        { presetPluginsJson := aux.presetPluginsJson, pluginsJson := aux.pluginsJson,
          indexJson := w.diskIndex, dirExists := aux.dirExists,
          manifestExists := aux.manifestExists, diskManifests := aux.diskManifests,
          diskI18ns := aux.diskI18ns, configurationJson := w.diskConfig,
          cacheJson := aux.cacheJson }
      let r := _readLocalPlugins w.st location presetLocation disk
      r.2.foldl applyFs { w with st := r.1 }

/-- The world a fresh installation starts from. -/
def initialWorld : World :=
  { st := initialManagerState, diskIndex := emptyCatalog, diskConfig := none }

/-- Pairwise distinctness of the pluginIds of a descriptor list. -/
def PidDistinct (l : List Plugin) : Prop :=
  l.Pairwise (fun a b => a.pluginId ≠ b.pluginId)

/-- At most one catalog entry per pluginId. -/
def CatalogUnique (c : MemoPlugins) : Prop := PidDistinct c.plugins

/-- Specification predicate for the dotted-path walk: every intermediate key
exists and the walk ends at the stated value. -/
inductive Walks : JVal → List String → JVal → Prop where
  | nil (v : JVal) : Walks v [] v
  | cons (fields : List (String × JVal)) (k : String) (ks : List String) (v w : JVal) :
      alistGet fields k = some v → Walks v ks w → Walks (JVal.vobj fields) (k :: ks) w

/-- A concrete manifest builder used by the concrete states below. -/
def mkSampleManifest (pid v : String) (it : Option ImportType)
    (cfgFields : List ManifestConfiguration) : Manifest :=
  { manifestVersion := "1", version := v, version_name := "release", title := pid,
    description := "", type := PluginType.translate, pluginId := pid, category := "ai",
    platforms := ["win32", "darwin"], arch := ["x64"], icon := "icon.svg",
    link := "https://plugins.example/" ++ pid, author := "a", homepage := "h", source := "s",
    importType := it,
    provider := { value := pid, label := pid, disabled := none },
    configuration := cfgFields, defaultsConfiguration := [], configurationRequired := [],
    configurationExposed := [], ttsInput := none, storageKey := none,
    configurationStorage := none }

/-- A cached online catalog used by the C1 scenarios. -/
def c1CachedCatalog : MemoPlugins :=
  { plugins := [], versions := [("memo-plugin-translate-tencent", "1.0.3")] }

/-- A state with one installed sandbox-mode plugin, for the C2 scenarios. -/
def c2SandboxManifest : Manifest := mkSampleManifest "p" "1.0.0" (some ImportType.sandbox) []

def c2St : ManagerState :=
  { initialManagerState with
    installedPlugins := [("p", pluginFromManifest "/plugins" c2SandboxManifest)],
    installedPluginsManifests := [("p", c2SandboxManifest)] }

/-- A module-mode manifest and state for the C2 witness. -/
def c2ModuleManifest : Manifest := mkSampleManifest "q" "1.0.0" (some ImportType.module) []

def c2ModuleSt : ManagerState :=
  { initialManagerState with installedPluginsManifests := [("q", c2ModuleManifest)] }

/-- The strictly older candidate manifest of the C3 scenario. -/
def c3OldManifest : Manifest := mkSampleManifest "p" "1.0.0" none []

/-- A state with version 2.0.0 of the same plugin installed. -/
def c3St : ManagerState :=
  { initialManagerState with
    localPlugins :=
      { plugins := [pluginFromManifest "/plugins" (mkSampleManifest "p" "2.0.0" none [])],
        versions := [("p", "2.0.0")] } }

/-- The catalog-and-configuration accumulator of the C3 witness. -/
def c3Acc : MemoPlugins × JRecord Obj :=
  ({ plugins := [pluginFromManifest "/plugins" (mkSampleManifest "p" "2.0.0" none [])],
     versions := [("p", "2.0.0")] }, [])

/-- The registry file contents and disk layout of the C4 reconciliation
scenario, parametric in the pruned entry, the surviving entry and the stored
configuration of the pruned entry: the directory and manifest of pKept
exist, those of pGone do not. -/
def c4DiskOf (pGone pKept : Plugin) (mKept : Manifest) (cfg : Obj) : DiskState :=
  { presetPluginsJson := none, pluginsJson := none,
    indexJson :=
      { plugins := [pGone, pKept],
        versions := [(pGone.pluginId, pGone.version), (pKept.pluginId, pKept.version)] },
    dirExists := [pKept.pluginId ++ "@" ++ pKept.version],
    manifestExists := [pKept.pluginId ++ "@" ++ pKept.version],
    diskManifests := [(pKept.pluginId ++ "@" ++ pKept.version, mKept)],
    diskI18ns := [],
    configurationJson := some [(pGone.pluginId ++ "@" ++ pGone.version, cfg)],
    cacheJson := none }

def c4GonePlugin : Plugin := pluginFromManifest "/plugins" (mkSampleManifest "gone" "1.0.0" none [])

def c4KeptManifest : Manifest := mkSampleManifest "keep" "2.0.0" none []

def c4KeptPlugin : Plugin := pluginFromManifest "/plugins" c4KeptManifest

def c4Disk : DiskState := c4DiskOf c4GonePlugin c4KeptPlugin c4KeptManifest [("a", JVal.vnum 1)]

/-- The two inherited fields of the C6 scenario. -/
def c6FieldA : ManifestConfiguration :=
  { label := "a", key := "a", type := "text", placeholder := "", description := "",
    helpText := "", searchPlaceholder := none, emptyPlaceholder := none, range := none,
    options := none, useI18nOptions := none, inherit := some "g.a" }

def c6FieldB : ManifestConfiguration :=
  { label := "b", key := "b", type := "text", placeholder := "", description := "",
    helpText := "", searchPlaceholder := none, emptyPlaceholder := none, range := none,
    options := none, useI18nOptions := none, inherit := some "g.b" }

def c6NewManifest : Manifest := mkSampleManifest "p" "1.1.0" none [c6FieldA, c6FieldB]

def c6OldPlugin : Plugin := pluginFromManifest "/plugins" (mkSampleManifest "p" "1.0.0" none [])

def c6St : ManagerState :=
  { initialManagerState with
    localPlugins := { plugins := [c6OldPlugin], versions := [("p", "1.0.0")] },
    pluginsConfigurations := [("p@1.0.0", [("a", JVal.vnum 1)])] }

/-- Host settings carrying the inheritable values of the C6 scenario. -/
def c6Settings : JVal :=
  JVal.vobj [("g", JVal.vobj [("a", JVal.vnum 2), ("b", JVal.vnum 3)])]

/-- The two manifests around the failing archive of the C7 scenario. -/
def c7Manifest1 : Manifest := mkSampleManifest "p1" "1.0.0" none []

def c7Manifest2 : Manifest := mkSampleManifest "p2" "1.0.0" none []

/-- The manifest field and host settings of the C9 scenario. -/
def c9HostField : ManifestConfiguration :=
  { label := "Host", key := "host", type := "text", placeholder := "", description := "",
    helpText := "", searchPlaceholder := none, emptyPlaceholder := none, range := none,
    options := none, useI18nOptions := none, inherit := some "openAI.Host" }

def c9Settings : JVal := JVal.vobj [("openAI", JVal.vobj [("Host", JVal.vstr "x.com")])]

lemma alistGet_set_self {α : Type} (m : JRecord α) (k : String) (v : α) :
    alistGet (alistSet m k v) k = some v := by
  induction m with
  | nil => simp [alistSet, alistGet]
  | cons kv rest ih =>
      by_cases h : kv.1 = k
      · simp [alistSet, alistGet, h]
      · simp only [alistSet, beq_eq_false_iff_ne.mpr h, if_neg]
        simp only [alistGet, List.find?]
        rw [show (kv.1 == k) = false from beq_eq_false_iff_ne.mpr h]
        exact ih

lemma alistGet_eq_none_iff {α : Type} (m : JRecord α) (k : String) :
    alistGet m k = none ↔ ∀ kv ∈ m, kv.1 ≠ k := by
  induction m with
  | nil => simp [alistGet]
  | cons kv rest ih =>
      by_cases h : kv.1 = k
      · simp [alistGet, List.find?, h]
      · simp only [alistGet, List.find?] at ih ⊢
        rw [show (kv.1 == k) = false from beq_eq_false_iff_ne.mpr h]
        simp [ih, h]

lemma alistErase_of_get_none {α : Type} (m : JRecord α) (k : String)
    (h : alistGet m k = none) : alistErase m k = m := by
  rw [alistGet_eq_none_iff] at h
  induction m with
  | nil => rfl
  | cons kv rest ih =>
      have h1 : kv.1 ≠ k := h kv (by simp)
      simp only [alistErase, List.filter]
      rw [show (kv.1 != k) = true from by simp [h1]]
      have := ih (fun kv2 hm => h kv2 (by simp [hm]))
      simpa [alistErase] using this

lemma findIndexBy_eq_none_iff {α : Type} (p : α → Bool) (l : List α) :
    findIndexBy p l = none ↔ ∀ a ∈ l, p a = false := by
  induction l with
  | nil => simp [findIndexBy]
  | cons a as ih =>
      by_cases h : p a
      · simp [findIndexBy, h]
      · simp [findIndexBy, h, ih]

lemma pidDistinct_set (pl : Plugin) :
    ∀ (l : List Plugin) (i : Nat),
      findIndexBy (fun p => p.pluginId == pl.pluginId) l = some i →
      PidDistinct l → PidDistinct (l.set i pl) := by
  intro l
  induction l with
  | nil => intro i h; simp [findIndexBy] at h
  | cons a as ih =>
      intro i hfind hdist
      by_cases ha : a.pluginId == pl.pluginId
      · simp only [findIndexBy, ha, if_pos] at hfind
        cases hfind
        have hid : a.pluginId = pl.pluginId := by simpa using ha
        simp only [List.set]
        rcases List.pairwise_cons.mp hdist with ⟨hhead, htail⟩
        exact List.pairwise_cons.mpr ⟨fun b hb => hid ▸ hhead b hb, htail⟩
      · have ha2 : (a.pluginId == pl.pluginId) = false := by simpa using ha
        simp only [findIndexBy, ha2, Bool.false_eq_true, if_false, Option.map_eq_some'] at hfind
        rcases hfind with ⟨j, hj, rfl⟩
        simp only [List.set]
        rcases List.pairwise_cons.mp hdist with ⟨hhead, htail⟩
        refine List.pairwise_cons.mpr ⟨?_, ih j hj htail⟩
        intro b hb
        rcases List.mem_or_eq_of_mem_set hb with h2 | h2
        · exact hhead b h2
        · subst h2
          intro hcontra
          exact ha (by simp [hcontra])

lemma catalogUpsert_unique (c : MemoPlugins) (pl : Plugin) (h : CatalogUnique c) :
    CatalogUnique (catalogUpsert c pl) := by
  unfold CatalogUnique catalogUpsert
  cases hfind : findIndexBy (fun p => p.pluginId == pl.pluginId) c.plugins with
  | some i =>
      simp only
      exact pidDistinct_set pl c.plugins i hfind h
  | none =>
      simp only
      refine List.pairwise_cons.mpr ⟨?_, h⟩
      intro b hb hcontra
      have := (findIndexBy_eq_none_iff _ _).mp hfind b hb
      simp [hcontra] at this

lemma pidDistinct_eraseIdx (l : List Plugin) (i : Nat) (h : PidDistinct l) :
    PidDistinct (l.eraseIdx i) :=
  h.sublist (List.eraseIdx_sublist l i)

lemma foldl_preserve {α β : Type} (P : β → Prop) (f : β → α → β)
    (h : ∀ b a, P b → P (f b a)) :
    ∀ (l : List α) (b : β), P b → P (l.foldl f b) := by
  intro l
  induction l with
  | nil => intro b hb; simpa using hb
  | cons a as ih =>
      intro b hb
      simpa using ih (f b a) (h b a hb)

lemma installPluginsState_localPlugins (st : ManagerState) (location : String) (data : Manifest)
    (i18nFile : Option I18n) (setting : JVal) :
    (installPluginsState st location data i18nFile setting).localPlugins =
      catalogUpsert st.localPlugins (pluginFromManifest location data) := rfl

lemma uninstallPluginState_unique (st : ManagerState) (pluginId : String)
    (h : CatalogUnique st.localPlugins) :
    CatalogUnique (uninstallPluginState st pluginId).localPlugins := by
  unfold uninstallPluginState CatalogUnique
  cases hfind : findIndexBy (fun p => p.pluginId == pluginId) st.localPlugins.plugins with
  | some i => exact pidDistinct_eraseIdx _ i h
  | none => exact h

lemma reconcileStep_unique (disk : DiskState) (acc : ManagerState × MemoPlugins)
    (kv : String × Plugin) (h : PidDistinct acc.2.plugins) :
    PidDistinct (reconcileStep disk acc kv).2.plugins := by
  unfold reconcileStep
  by_cases hc : disk.dirExists.contains (kv.2.pluginId ++ "@" ++ kv.2.version) &&
      disk.manifestExists.contains (kv.2.pluginId ++ "@" ++ kv.2.version)
  · simp only [hc, if_pos]
    exact h
  · simp only [Bool.not_eq_true] at hc
    simp only [hc, Bool.false_eq_true, if_false]
    cases hfind : findIndexBy (fun p => p.pluginId == kv.1) acc.2.plugins with
    | some i => exact pidDistinct_eraseIdx _ i h
    | none => exact h

lemma readLocalPlugins_unique (st : ManagerState) (location presetLocation : String)
    (disk : DiskState) (h : CatalogUnique disk.indexJson) :
    CatalogUnique (_readLocalPlugins st location presetLocation disk).1.localPlugins := by
  unfold _readLocalPlugins CatalogUnique
  exact foldl_preserve (fun (acc : ManagerState × MemoPlugins) => PidDistinct acc.2.plugins)
    (reconcileStep disk) (fun b a hb => reconcileStep_unique disk b a hb) _ _ h

/-- The invariant tracked across lifecycle operations: at most one catalog
entry per pluginId, in memory and in the registry file. -/
def WorldInv (w : World) : Prop :=
  CatalogUnique w.st.localPlugins ∧ CatalogUnique w.diskIndex

lemma applyOp_inv (w : World) (op : RegistryOp) (h : WorldInv w) : WorldInv (applyOp w op) := by
  rcases h with ⟨hmem, hdisk⟩
  cases op with
  | install location uuid packPath found setting =>
      cases found with
      | none =>
          simp only [applyOp, installPlugins, List.foldl, applyFs]
          exact ⟨hmem, hdisk⟩
      | some f =>
          simp only [applyOp, installPlugins, List.cons_append, List.nil_append,
            List.foldl, applyFs]
          constructor
          · rw [installPluginsState_localPlugins]
            exact catalogUpsert_unique _ _ hmem
          · rw [installPluginsState_localPlugins]
            exact catalogUpsert_unique _ _ hmem
  | uninstall location pluginId =>
      have hu : CatalogUnique (uninstallPluginState w.st pluginId).localPlugins :=
        uninstallPluginState_unique w.st pluginId hmem
      cases hdel : deletedPluginOf w.st pluginId with
      | some dp =>
          simp only [applyOp, uninstallPlugin, hdel, List.cons_append, List.nil_append,
            List.foldl, applyFs]
          exact ⟨hu, hu⟩
      | none =>
          simp only [applyOp, uninstallPlugin, hdel, List.cons_append, List.nil_append,
            List.foldl, applyFs]
          exact ⟨hu, hu⟩
  | reload location presetLocation aux =>
      have hr := readLocalPlugins_unique w.st location presetLocation
        { presetPluginsJson := aux.presetPluginsJson, pluginsJson := aux.pluginsJson,
          indexJson := w.diskIndex, dirExists := aux.dirExists,
          manifestExists := aux.manifestExists, diskManifests := aux.diskManifests,
          diskI18ns := aux.diskI18ns, configurationJson := w.diskConfig,
          cacheJson := aux.cacheJson } hdisk
      cases hp : aux.presetPluginsJson with
      | some mp =>
          simp only [applyOp, _readLocalPlugins, hp, List.foldl, applyFs]
          refine ⟨?_, hdisk⟩
          have := hr
          simp only [_readLocalPlugins, hp] at this
          exact this
      | none =>
          cases hq : aux.pluginsJson with
          | some mp =>
              simp only [applyOp, _readLocalPlugins, hp, hq, List.foldl, applyFs]
              refine ⟨?_, hdisk⟩
              have := hr
              simp only [_readLocalPlugins, hp, hq] at this
              exact this
          | none =>
              simp only [applyOp, _readLocalPlugins, hp, hq, List.foldl, applyFs]
              refine ⟨?_, hdisk⟩
              have := hr
              simp only [_readLocalPlugins, hp, hq] at this
              exact this

lemma walks_getValueFromJSONPath (j : JVal) (ks : List String) (v : JVal)
    (h : Walks j ks v) : getValueFromJSONPath j ks = v := by
  induction h with
  | nil v => cases v <;> rfl
  | cons fields k ks v w hg hw ih => simp [getValueFromJSONPath, hg, ih]

lemma no_walks_getValueFromJSONPath :
    ∀ (ks : List String) (j : JVal), (∀ v, ¬ Walks j ks v) →
      getValueFromJSONPath j ks = JVal.vundef := by
  intro ks
  induction ks with
  | nil => intro j h; exact absurd (Walks.nil j) (h j)
  | cons k ks ih =>
      intro j h
      cases j with
      | vnull => rfl
      | vundef => rfl
      | vbool b => rfl
      | vnum n => rfl
      | vstr s => rfl
      | vobj fields =>
          cases hg : alistGet fields k with
          | some v =>
              have hnone : ∀ w, ¬ Walks v ks w :=
                fun w hw => h w (Walks.cons fields k ks v w hg hw)
              simp [getValueFromJSONPath, hg, ih v hnone]
          | none => simp [getValueFromJSONPath, hg]

/-- Claim C9: the dotted-path inheritance lookup is total by construction,
returns the value stored at the path whenever every intermediate key exists
(the Walks predicate), returns the undefined sentinel whenever no complete
walk exists, and on the spec examples seeds host from openAI.Host for the
populated settings and the undefined sentinel for the empty settings. -/
theorem c9_inherit_lookup_total :
    (∀ (j : JVal) (ks : List String) (v : JVal), Walks j ks v →
        getValueFromJSONPath j ks = v) ∧
    (∀ (j : JVal) (ks : List String), (∀ v, ¬ Walks j ks v) →
        getValueFromJSONPath j ks = JVal.vundef) ∧
    (∀ (json : JVal) (valuePath : String),
        getValueFromJSON json valuePath = getValueFromJSONPath json (jsSplitDot valuePath)) ∧
    inheritConfig [c9HostField] c9Settings = [("host", JVal.vstr "x.com")] ∧
    inheritConfig [c9HostField] (JVal.vobj []) = [("host", JVal.vundef)] :=
  ⟨walks_getValueFromJSONPath,
   fun j ks h => no_walks_getValueFromJSONPath ks j h,
   fun _ _ => rfl,
   rfl,
   rfl⟩

/-- Witness for claim C9: the general lookup theorem applied to the concrete
host settings of the spec example, on both the present and the absent path. -/
theorem c9_witness :
    getValueFromJSONPath c9Settings ["openAI", "Host"] = JVal.vstr "x.com" ∧
    getValueFromJSONPath (JVal.vobj []) ["openAI", "Host"] = JVal.vundef := by
  constructor
  · exact c9_inherit_lookup_total.1 c9Settings ["openAI", "Host"] (JVal.vstr "x.com")
      (Walks.cons _ _ _ _ _ rfl (Walks.cons _ _ _ _ _ rfl (Walks.nil _)))
  · refine c9_inherit_lookup_total.2.1 (JVal.vobj []) ["openAI", "Host"] ?_
    intro v h
    cases h with
    | cons fields k ks v w hg hw => simp [alistGet] at hg

/-- Counterexample for claim C1: with a cached plugins.json present, a
rejected network fetch makes getOnlinePlugins reject with that error instead
of returning the cached catalog. -/
theorem c1_counterexample :
    getOnlinePlugins (FetchResult.rejected "timeout") (some c1CachedCatalog) =
      Except.error "timeout" := rfl

/-- Claim C1 (amended): the cached-catalog and empty-catalog fallbacks apply
only to a fulfilled fetch whose body fails the success and data guard; an
awaited rejection of the fetch (timeout, transport error) propagates out of
getOnlinePlugins and refreshOnlinePlugins to their callers. -/
theorem c1_refresh_fallback :
    (∀ (e : String) (cached : Option MemoPlugins),
        getOnlinePlugins (FetchResult.rejected e) cached = Except.error e) ∧
    (∀ (body : Option OnlineResponse) (c : MemoPlugins), onlineResponseData body = none →
        getOnlinePlugins (FetchResult.fulfilled body) (some c) = Except.ok (c, [])) ∧
    (∀ (body : Option OnlineResponse), onlineResponseData body = none →
        getOnlinePlugins (FetchResult.fulfilled body) none = Except.ok (emptyCatalog, [])) ∧
    (∀ (st : ManagerState) (e : String) (cached : Option MemoPlugins),
        refreshOnlinePlugins st (FetchResult.rejected e) cached = Except.error e) := by
  refine ⟨fun e cached => rfl, ?_, ?_, fun st e cached => rfl⟩
  · intro body c h
    simp [getOnlinePlugins, h]
  · intro body h
    simp [getOnlinePlugins, h]

/-- Witness for claim C1: an unsuccessful response body with the cached
catalog present returns exactly the cached catalog without any write. -/
theorem c1_witness :
    getOnlinePlugins (FetchResult.fulfilled (some { success := false, data := none }))
      (some c1CachedCatalog) = Except.ok (c1CachedCatalog, []) :=
  c1_refresh_fallback.2.1 (some { success := false, data := none }) c1CachedCatalog rfl

/-- Claim C10: when the pluginId has no entry in the in-memory online
catalog, installOnlinePlugins leaves the promise pending forever, starts no
download and changes neither the state nor the disk. -/
theorem c10_unknown_online_install_pending :
    ∀ (st : ManagerState) (location pluginId : String) (dl : DownloadOutcome) (uuid : String),
      st.onlinePlugins.plugins.find? (fun p => p.pluginId == pluginId) = none →
      installOnlinePlugins st location pluginId dl uuid = (PromiseState.pending, st, []) := by
  intro st location pluginId dl uuid h
  simp [installOnlinePlugins, h]

/-- Witness for claim C10: installing an unknown online pluginId from the
fresh state is pending with no actions. -/
theorem c10_witness :
    installOnlinePlugins initialManagerState "/plugins" "ghost"
      (DownloadOutcome.failure "net") "u" = (PromiseState.pending, initialManagerState, []) :=
  c10_unknown_online_install_pending initialManagerState "/plugins" "ghost"
    (DownloadOutcome.failure "net") "u" rfl

/-- Counterexample for claim C5: uninstalling a pluginId that is absent from
the fresh registry still performs disk writes (index.json and
configuration.json are rewritten), so the operation is not write-free. -/
theorem c5_counterexample :
    (uninstallPlugin initialManagerState "/plugins" "ghost").2 ≠ [] := by
  simp [uninstallPlugin, uninstallPluginState, deletedPluginOf, initialManagerState,
    emptyCatalog, findIndexBy]

/-- Claim C5 (amended): for a pluginId absent from every registry structure,
uninstallPlugin returns the state unchanged and removes no directory, but it
still rewrites index.json and configuration.json with their unchanged
contents. -/
theorem c5_unknown_uninstall_noop :
    ∀ (st : ManagerState) (location pluginId : String),
      findIndexBy (fun p => p.pluginId == pluginId) st.localPlugins.plugins = none →
      alistGet st.localPlugins.versions pluginId = none →
      alistGet st.installedPlugins pluginId = none →
      alistGet st.installedPluginsManifests pluginId = none →
      alistGet st.installedPluginsI18ns pluginId = none →
      findIndexBy (fun p => p.pluginId == pluginId) st.pluginProviders = none →
      uninstallPlugin st location pluginId =
        (st, [FsAction.writeIndexJson st.localPlugins,
              FsAction.writeConfigurationJson st.pluginsConfigurations]) := by
  intro st location pluginId h1 h2 h3 h4 h5 h6
  have hdel : deletedPluginOf st pluginId = none := by
    simp [deletedPluginOf, h1]
  simp only [uninstallPlugin, uninstallPluginState, hdel, h1, h6,
    alistErase_of_get_none _ _ h2, alistErase_of_get_none _ _ h3,
    alistErase_of_get_none _ _ h4, alistErase_of_get_none _ _ h5,
    List.append_nil]

/-- Witness for claim C5: the amended statement applied to the fresh state
and an unknown pluginId. -/
theorem c5_witness :
    uninstallPlugin initialManagerState "/plugins" "missing" =
      (initialManagerState,
       [FsAction.writeIndexJson initialManagerState.localPlugins,
        FsAction.writeConfigurationJson initialManagerState.pluginsConfigurations]) :=
  c5_unknown_uninstall_noop initialManagerState "/plugins" "missing" rfl rfl rfl rfl rfl rfl

/-- Claim C6: when the pluginId is already listed in the local catalog, the
configuration seeded for the candidate version equals the object spread of
the inherited values with the old saved configuration, the old saved value
winning on colliding keys. -/
theorem c6_upgrade_config_merge :
    ∀ (st : ManagerState) (location : String) (data : Manifest) (i18nFile : Option I18n)
      (setting : JVal) (i : Nat) (oldPlugin : Plugin),
      findIndexBy (fun p => p.pluginId == data.pluginId) st.localPlugins.plugins = some i →
      st.localPlugins.plugins[i]? = some oldPlugin →
      compareVersions data.version oldPlugin.version = 1 →
      alistGet (installPluginsState st location data i18nFile setting).pluginsConfigurations
          (data.pluginId ++ "@" ++ data.version) =
        some (objSpread (inheritConfig data.configuration setting)
          ((alistGet st.pluginsConfigurations
              (oldPlugin.pluginId ++ "@" ++ oldPlugin.version)).getD [])) := by
  intro st location data i18nFile setting i oldPlugin h1 h2 hnew
  have hpid : (pluginFromManifest location data).pluginId = data.pluginId := rfl
  simp only [installPluginsState, hpid, h1, h2, alistGet_set_self]

/-- Witness for claim C6: upgrading the configured plugin from 1.0.0 (saved
config a=1) to 1.1.0 (inheriting a=2 and b=3 from the host settings) seeds
the merge, and the merge evaluates to a=1, b=3 as the spec example states. -/
theorem c6_witness :
    (alistGet (installPluginsState c6St "/plugins" c6NewManifest none c6Settings).pluginsConfigurations
        ("p" ++ "@" ++ "1.1.0") =
      some (objSpread (inheritConfig c6NewManifest.configuration c6Settings)
        ((alistGet c6St.pluginsConfigurations ("p" ++ "@" ++ "1.0.0")).getD []))) ∧
    objSpread (inheritConfig c6NewManifest.configuration c6Settings) [("a", JVal.vnum 1)] =
      [("a", JVal.vnum 1), ("b", JVal.vnum 3)] :=
  ⟨c6_upgrade_config_merge c6St "/plugins" c6NewManifest none c6Settings 0 c6OldPlugin
      rfl rfl (by decide),
   rfl⟩

/-- Counterexample for claim C3: the single-archive install has no version
gate: installing candidate 1.0.0 while 2.0.0 is installed replaces the
recorded version instead of being a no-op. -/
theorem c3_counterexample :
    compareVersions "1.0.0" "2.0.0" = -1 ∧
    alistGet c3St.localPlugins.versions "p" = some "2.0.0" ∧
    alistGet (installPluginsState c3St "/plugins" c3OldManifest none JVal.vundef).localPlugins.versions
        "p" = some "1.0.0" :=
  ⟨by decide, rfl, rfl⟩

/-- Claim C3 (amended): the strictly-older skip holds for the preset batch
install only — presetStep leaves catalog and configuration untouched for a
strictly older candidate — while the single-archive installPlugins applies
no version comparison and records the candidate version unconditionally. -/
theorem c3_version_gate :
    (∀ (pluginsFolder : String) (acc : MemoPlugins × JRecord Obj) (data : Manifest)
        (oldVersion : String),
        alistGet acc.1.versions data.pluginId = some oldVersion →
        compareVersions data.version oldVersion = -1 →
        presetStep pluginsFolder acc data = acc) ∧
    (∀ (st : ManagerState) (location : String) (data : Manifest) (i18nFile : Option I18n)
        (setting : JVal),
        alistGet (installPluginsState st location data i18nFile setting).localPlugins.versions
            data.pluginId = some data.version) := by
  constructor
  · intro pluginsFolder acc data oldVersion hget hold
    have hpid : (pluginFromManifest pluginsFolder data).pluginId = data.pluginId := rfl
    have hver : (pluginFromManifest pluginsFolder data).version = data.version := rfl
    simp only [presetStep, hpid, hver, hget, hold]
    norm_num
  · intro st location data i18nFile setting
    have hpid : (pluginFromManifest location data).pluginId = data.pluginId := rfl
    have hver : (pluginFromManifest location data).version = data.version := rfl
    simp only [installPluginsState, catalogUpsert, hpid, hver, alistGet_set_self]

/-- Witness for claim C3: the gate of the preset batch install applied to a
concrete strictly older candidate leaves the accumulator unchanged. -/
theorem c3_witness :
    presetStep "/plugins" c3Acc c3OldManifest = c3Acc :=
  c3_version_gate.1 "/plugins" c3Acc c3OldManifest "2.0.0" rfl (by decide)

/-- Counterexample for claim C2: for a sandbox-mode plugin nothing is ever
recorded in importedPlugins, so the second load re-evaluates the entry code
(the evaluation count reaches two) and returns a distinct handle. -/
theorem c2_counterexample :
    (loadPlugin (loadPlugin c2St "p").2 "p").1 ≠ (loadPlugin c2St "p").1 ∧
    (loadPlugin (loadPlugin c2St "p").2 "p").2.evalCount = 2 := by
  constructor
  · decide
  · rfl

/-- Claim C2 (amended): a handle recorded in importedPlugins is returned as
is, and a handle is recorded only by the module import branch: for a
module-mode plugin not yet loaded, the second load returns the same handle
and an identical state, so the entry code is not re-evaluated; sandbox-mode
loads are not memoized (see the counterexample). -/
theorem c2_module_memoized :
    ∀ (st : ManagerState) (pluginId : String) (m : Manifest),
      alistGet st.installedPluginsManifests pluginId = some m →
      m.importType = some ImportType.module →
      alistGet st.importedPlugins pluginId = none →
      (loadPlugin (loadPlugin st pluginId).2 pluginId).1 = (loadPlugin st pluginId).1 ∧
      (loadPlugin (loadPlugin st pluginId).2 pluginId).2 = (loadPlugin st pluginId).2 := by
  intro st pluginId m h1 h2 h3
  simp only [loadPlugin, _loadLocalPlugin, h1, h2, h3, Option.map_some', alistGet_set_self]
  exact ⟨by trivial, by trivial⟩

/-- Witness for claim C2: the module-mode memoization applied to a concrete
state with one module-mode manifest. -/
theorem c2_witness :
    (loadPlugin (loadPlugin c2ModuleSt "q").2 "q").1 = (loadPlugin c2ModuleSt "q").1 ∧
    (loadPlugin (loadPlugin c2ModuleSt "q").2 "q").2 = (loadPlugin c2ModuleSt "q").2 :=
  c2_module_memoized c2ModuleSt "q" c2ModuleManifest rfl rfl rfl

lemma installDefaultLoop_append_err (pluginsFolder e : String) :
    ∀ (pre : List ArchiveResult) (post : List ArchiveResult) (acc : MemoPlugins × JRecord Obj),
      (∀ a ∈ pre, ∃ m, a = ArchiveResult.ok m) →
      installDefaultLoop pluginsFolder (pre ++ ArchiveResult.err e :: post) acc =
        Except.error e := by
  intro pre
  induction pre with
  | nil => intro post acc hok; rfl
  | cons a as ih =>
      intro post acc hok
      rcases hok a (by simp) with ⟨m, rfl⟩
      simpa [installDefaultLoop] using
        ih post (presetStep pluginsFolder acc m) (fun b hb => hok b (by simp [hb]))

lemma installDefaultLoop_all_ok (pluginsFolder : String) :
    ∀ (archives : List ArchiveResult) (acc : MemoPlugins × JRecord Obj),
      (∀ a ∈ archives, ∃ m, a = ArchiveResult.ok m) →
      ∃ r, installDefaultLoop pluginsFolder archives acc = Except.ok r := by
  intro archives
  induction archives with
  | nil => intro acc hok; exact ⟨acc, rfl⟩
  | cons a as ih =>
      intro acc hok
      rcases hok a (by simp) with ⟨m, rfl⟩
      simpa [installDefaultLoop] using
        ih (presetStep pluginsFolder acc m) (fun b hb => hok b (by simp [hb]))

/-- Counterexample for claim C7: with the batch ok, err, ok the preset
install rejects with the middle error, the third archive is never processed
and no catalog or configuration flush is written at all. -/
theorem c7_counterexample :
    _installDefaultPlugins "/plugins"
        [ArchiveResult.ok c7Manifest1, ArchiveResult.err "unzip failed",
         ArchiveResult.ok c7Manifest2]
        (some emptyCatalog) none false [] = ([], Except.error "unzip failed") := rfl

/-- Claim C7 (amended): archives are processed sequentially and the first
failing archive rejects the whole batch, skipping the remaining archives and
the final flush; only when every archive succeeds are index.json and
configuration.json flushed, exactly once each, at the end of the batch. -/
theorem c7_batch_flush :
    (∀ (pluginsFolder e : String) (pre post : List ArchiveResult) (ip0 : MemoPlugins)
        (cfgJ : Option (JRecord Obj)) (rm : Bool) (paths : List String),
        (∀ a ∈ pre, ∃ m, a = ArchiveResult.ok m) →
        _installDefaultPlugins pluginsFolder (pre ++ ArchiveResult.err e :: post)
            (some ip0) cfgJ rm paths = ([], Except.error e)) ∧
    (∀ (pluginsFolder : String) (archives : List ArchiveResult) (ip0 : MemoPlugins)
        (cfgJ : Option (JRecord Obj)) (rm : Bool) (paths : List String),
        archives ≠ [] →
        (∀ a ∈ archives, ∃ m, a = ArchiveResult.ok m) →
        ∃ ip cfg,
          installDefaultLoop pluginsFolder archives (ip0, cfgJ.getD []) = Except.ok (ip, cfg) ∧
          _installDefaultPlugins pluginsFolder archives (some ip0) cfgJ rm paths =
            ([FsAction.writeIndexJson ip, FsAction.writeConfigurationJson cfg] ++
               (if rm then paths.map FsAction.removeFile else []),
             Except.ok ())) := by
  constructor
  · intro pluginsFolder e pre post ip0 cfgJ rm paths hok
    have hloop := installDefaultLoop_append_err pluginsFolder e pre post
      (ip0, cfgJ.getD []) hok
    cases pre with
    | nil => simp [_installDefaultPlugins, installDefaultLoop]
    | cons a as =>
        simp only [List.cons_append] at hloop ⊢
        simp [_installDefaultPlugins, hloop]
  · intro pluginsFolder archives ip0 cfgJ rm paths hne hok
    obtain ⟨r, hr⟩ := installDefaultLoop_all_ok pluginsFolder archives (ip0, cfgJ.getD []) hok
    refine ⟨r.1, r.2, by simpa using hr, ?_⟩
    cases archives with
    | nil => exact absurd rfl hne
    | cons a rest => simp [_installDefaultPlugins, hr]

/-- Witness for claim C7: both parts of the amended statement applied at
concrete batches. -/
theorem c7_witness :
    _installDefaultPlugins "/plugins" [ArchiveResult.ok c7Manifest1, ArchiveResult.err "boom"]
        (some emptyCatalog) none false [] = ([], Except.error "boom") :=
  c7_batch_flush.1 "/plugins" "boom" [ArchiveResult.ok c7Manifest1] [] emptyCatalog none false []
    (by intro a ha; simp at ha; exact ⟨c7Manifest1, ha⟩)

/-- Claim C8: after any sequence of install, uninstall and reload
operations starting from a world whose in-memory catalog and registry file
both list each pluginId at most once, both still do: installPlugins either
replaces the descriptor in place or prepends a fresh pluginId, uninstall
only removes, and a reload prunes the registry file it reads back. -/
theorem c8_catalog_unique :
    ∀ (ops : List RegistryOp) (w : World),
      CatalogUnique w.st.localPlugins → CatalogUnique w.diskIndex →
      CatalogUnique (ops.foldl applyOp w).st.localPlugins ∧
      CatalogUnique (ops.foldl applyOp w).diskIndex := by
  intro ops
  induction ops with
  | nil => intro w h1 h2; exact ⟨h1, h2⟩
  | cons op rest ih =>
      intro w h1 h2
      have hstep := applyOp_inv w op ⟨h1, h2⟩
      simpa using ih (applyOp w op) hstep.1 hstep.2

/-- Witness for claim C8: a concrete sequence (a single-archive install of
a plugin, a reinstall of the same pluginId, and an uninstall of another)
run from the fresh world keeps the catalog free of duplicate pluginIds. -/
theorem c8_witness :
    CatalogUnique (([RegistryOp.install "/plugins" "u1" "/tmp/a.memox"
          (some { manifestDir := "/plugins/u1", data := mkSampleManifest "p" "1.0.0" none [],
                  i18nFile := none }) JVal.vundef,
        RegistryOp.install "/plugins" "u2" "/tmp/b.memox"
          (some { manifestDir := "/plugins/u2", data := mkSampleManifest "p" "2.0.0" none [],
                  i18nFile := none }) JVal.vundef,
        RegistryOp.uninstall "/plugins" "ghost"].foldl applyOp initialWorld)).st.localPlugins ∧
    CatalogUnique (([RegistryOp.install "/plugins" "u1" "/tmp/a.memox"
          (some { manifestDir := "/plugins/u1", data := mkSampleManifest "p" "1.0.0" none [],
                  i18nFile := none }) JVal.vundef,
        RegistryOp.install "/plugins" "u2" "/tmp/b.memox"
          (some { manifestDir := "/plugins/u2", data := mkSampleManifest "p" "2.0.0" none [],
                  i18nFile := none }) JVal.vundef,
        RegistryOp.uninstall "/plugins" "ghost"].foldl applyOp initialWorld)).diskIndex :=
  c8_catalog_unique _ initialWorld
    (by simp [CatalogUnique, PidDistinct, initialWorld, initialManagerState, emptyCatalog])
    (by simp [CatalogUnique, PidDistinct, initialWorld, emptyCatalog])

/-- Counterexample for claim C4: reconciling a registry whose entry gone@1.0.0
has lost its directory leaves the pruned configuration entry in the store
(step four re-reads configuration.json after the prune deleted it) and
performs no index.json write, so the registry file does not reflect the
pruning. -/
theorem c4_counterexample :
    alistGet (_readLocalPlugins initialManagerState "/plugins" "/preset" c4Disk).1.pluginsConfigurations
        "gone@1.0.0" = some [("a", JVal.vnum 1)] ∧
    (_readLocalPlugins initialManagerState "/plugins" "/preset" c4Disk).2 = [] :=
  ⟨rfl, rfl⟩

/-- Claim C4 (amended): on a startup reload, an entry whose versioned
directory or manifest is missing is dropped from the in-memory catalog,
versions map, installed map, manifest map and localization map, and gets no
provider entry; however its configuration entry survives (configuration.json
is re-read after the prune) and the registry file is not rewritten during
the pass. -/
theorem c4_reconcile_prune :
    ∀ (pGone pKept : Plugin) (mKept : Manifest) (cfg : Obj) (location presetLocation : String),
      pGone.pluginId ≠ pKept.pluginId →
      pGone.pluginId ++ "@" ++ pGone.version ≠ pKept.pluginId ++ "@" ++ pKept.version →
      alistGet (_readLocalPlugins initialManagerState location presetLocation
          (c4DiskOf pGone pKept mKept cfg)).1.installedPlugins pGone.pluginId = none ∧
      (_readLocalPlugins initialManagerState location presetLocation
          (c4DiskOf pGone pKept mKept cfg)).1.localPlugins.plugins = [pKept] ∧
      alistGet (_readLocalPlugins initialManagerState location presetLocation
          (c4DiskOf pGone pKept mKept cfg)).1.localPlugins.versions pGone.pluginId = none ∧
      alistGet (_readLocalPlugins initialManagerState location presetLocation
          (c4DiskOf pGone pKept mKept cfg)).1.installedPluginsManifests pGone.pluginId = none ∧
      alistGet (_readLocalPlugins initialManagerState location presetLocation
          (c4DiskOf pGone pKept mKept cfg)).1.installedPluginsI18ns pGone.pluginId = none ∧
      (_readLocalPlugins initialManagerState location presetLocation
          (c4DiskOf pGone pKept mKept cfg)).1.pluginProviders = [mkPluginProvider mKept pKept] ∧
      alistGet (_readLocalPlugins initialManagerState location presetLocation
          (c4DiskOf pGone pKept mKept cfg)).1.pluginsConfigurations
          (pGone.pluginId ++ "@" ++ pGone.version) = some cfg ∧
      (_readLocalPlugins initialManagerState location presetLocation
          (c4DiskOf pGone pKept mKept cfg)).2 = [] := by
  intro pGone pKept mKept cfg location presetLocation hid hdir
  have hgk : (pGone.pluginId == pKept.pluginId) = false := beq_eq_false_iff_ne.mpr hid
  have hkg : (pKept.pluginId == pGone.pluginId) = false := beq_eq_false_iff_ne.mpr (Ne.symm hid)
  have hdgk : ((pGone.pluginId ++ "@" ++ pGone.version) ==
      (pKept.pluginId ++ "@" ++ pKept.version)) = false := beq_eq_false_iff_ne.mpr hdir
  have hdkg : ((pKept.pluginId ++ "@" ++ pKept.version) ==
      (pGone.pluginId ++ "@" ++ pGone.version)) = false := beq_eq_false_iff_ne.mpr (Ne.symm hdir)
  simp [_readLocalPlugins, c4DiskOf, reconcileStep, initialManagerState, emptyCatalog,
    alistGet, alistSet, alistErase, findIndexBy, mkPluginProvider,
    List.contains, List.elem, hgk, hkg, hdgk, hdkg]

/-- Witness for claim C4: the amended reconciliation statement applied to
the concrete two-entry registry, with gone@1.0.0 missing on disk and
keep@2.0.0 intact. -/
theorem c4_witness :
    alistGet (_readLocalPlugins initialManagerState "/plugins" "/preset" c4Disk).1.installedPlugins
        "gone" = none ∧
    (_readLocalPlugins initialManagerState "/plugins" "/preset" c4Disk).1.localPlugins.plugins =
      [c4KeptPlugin] ∧
    alistGet (_readLocalPlugins initialManagerState "/plugins" "/preset" c4Disk).1.localPlugins.versions
        "gone" = none ∧
    alistGet (_readLocalPlugins initialManagerState "/plugins" "/preset" c4Disk).1.installedPluginsManifests
        "gone" = none ∧
    alistGet (_readLocalPlugins initialManagerState "/plugins" "/preset" c4Disk).1.installedPluginsI18ns
        "gone" = none ∧
    (_readLocalPlugins initialManagerState "/plugins" "/preset" c4Disk).1.pluginProviders =
      [mkPluginProvider c4KeptManifest c4KeptPlugin] ∧
    alistGet (_readLocalPlugins initialManagerState "/plugins" "/preset" c4Disk).1.pluginsConfigurations
        "gone@1.0.0" = some [("a", JVal.vnum 1)] ∧
    (_readLocalPlugins initialManagerState "/plugins" "/preset" c4Disk).2 = [] :=
  c4_reconcile_prune c4GonePlugin c4KeptPlugin c4KeptManifest [("a", JVal.vnum 1)]
    "/plugins" "/preset" (by decide) (by decide)
